import Mathlib

/-!
Verification of the `entt::poly` type-erasure core (`src/entt/poly/poly.hpp`)
against its natural-language specification.

The development shallowly embeds the polymorphic holder `entt::poly<Concept>`
and the static virtual-table factory `poly_vtable<Concept>`.  Concrete C++
types held by a poly are represented by a numeric type identity `TypeId`
tagging values drawn from a single value universe `V`; C++ objects live in an
explicit heap (`Store`), so that pointer identity, aliasing and in-place
mutation are expressible.  The erased storage component `entt::any` is not
part of the sources under verification (only `poly.hpp` and its tests are);
its behaviour is modelled from the specification's boundary contract for the
Storage Cell.  Undefined behaviour (dispatching through an empty holder,
casting an empty `any`) is modelled by `Option`.
-/

namespace entt

/-- Identity of a concrete C++ type, as produced by `type_id`.  The empty
identity (`type_info` of nothing) is represented by `none` at use sites. -/
abbrev TypeId := Nat

/-- A heap of constructed objects: a total memory `mem` indexed by addresses
together with the next fresh address.  Addresses below `next` are the ones
that have been allocated. -/
structure Store (V : Type) where
  mem : Nat → V
  next : Nat

namespace Store

/-- Allocates a fresh object holding `v`; returns the new store and the
address of the object. -/
def alloc {V : Type} (s : Store V) (v : V) : Store V × Nat :=
  (⟨fun i => if i = s.next then v else s.mem i, s.next + 1⟩, s.next)

/-- Overwrites the object at address `a` with `v` (in-place mutation). -/
def write {V : Type} (s : Store V) (a : Nat) (v : V) : Store V :=
  ⟨fun i => if i = a then v else s.mem i, s.next⟩

end Store

/-- Modelled from the spec: the Storage Cell (`entt::any`), a type-erased
value container that is empty, owns a constructed instance, or aliases an
externally owned instance.  The cell records the address of the object it
holds and the identity of the held concrete type; ownership is the tag. -/
inductive Cell where
  | empty : Cell
  | owned (addr : Nat) (ty : TypeId) : Cell
  | aliased (addr : Nat) (ty : TypeId) : Cell
deriving DecidableEq, Repr

namespace Cell

/-- Modelled from the spec: `any::type()`; the held type identity, or the
empty identity (`none`) for an empty cell. -/
def typeId : Cell → Option TypeId
  | .empty => none
  | .owned _ t => some t
  | .aliased _ t => some t

/-- Modelled from the spec: `any::data()`; an opaque pointer (heap address)
to the contents, or null (`none`) when empty. -/
def data : Cell → Option Nat
  | .empty => none
  | .owned a _ => some a
  | .aliased a _ => some a

/-- Modelled from the spec: constructing an owning cell in place
(`any{std::in_place_type<Type>, args...}`): a fresh object is allocated and
the cell owns it. -/
def mkOwned {V : Type} (s : Store V) (t : TypeId) (v : V) : Store V × Cell :=
  let (s', a) := s.alloc v
  (s', .owned a t)

/-- Modelled from the spec: constructing an aliasing cell from a reference
to an externally owned object at address `a` (`any{std::ref(obj)}`); the
cell never copies nor takes ownership of the referent. -/
def mkAliased (a : Nat) (t : TypeId) : Cell :=
  .aliased a t

/-- Modelled from the spec: copying a cell deep-copies an owned value into a
fresh object and shares the reference of an aliased value. -/
def copy {V : Type} (s : Store V) : Cell → Store V × Cell
  | .empty => (s, .empty)
  | .owned a t =>
      let (s', a') := s.alloc (s.mem a)
      (s', .owned a' t)
  | .aliased a t => (s, .aliased a t)

/-- Modelled from the spec: `any::emplace<Type>(args...)` destroys the
current contents and constructs new owning contents. -/
def emplaceCell {V : Type} (s : Store V) (_c : Cell) (t : TypeId) (v : V) :
    Store V × Cell :=
  let (s', a) := s.alloc v
  (s', .owned a t)

/-- Modelled from the spec: `any::ref()` returns a cell aliasing this cell's
current contents (no contents when empty). -/
def ref : Cell → Cell
  | .empty => .empty
  | .owned a t => .aliased a t
  | .aliased a t => .aliased a t

/-- A cell is valid in a store when every address it mentions has been
allocated. -/
def ValidIn {V : Type} (c : Cell) (s : Store V) : Prop :=
  ∀ a ∈ c.data, a < s.next

instance {V : Type} (c : Cell) (s : Store V) : Decidable (c.ValidIn s) := by
  unfold ValidIn
  exact inferInstance

end Cell

/-- An implementation selector, one entry of `poly_impl<Concept, Type>` for a
given concrete type.  Mirroring the two arms of `fill_vtable_entry`
(`poly.hpp` lines 88-97): a selector is either invocable with the forwarded
arguments alone (a free function taking no receiver, such as
`&members<Type>::value_type` in `poly_storage.hpp`), or it requires the
unerased concrete receiver first (a member pointer such as `&Type::set`, or
a free adapter such as the `decr` lambda in the tests).  A receiver-taking
selector may mutate the receiver, so it returns the updated receiver
alongside the result. -/
inductive Selector (V A R : Type) where
  | free (f : A → R) : Selector V A R
  | member (f : V → A → V × R) : Selector V A R

namespace Selector

/-- Mirrors the compile-time test `std::is_invocable_r_v<Ret,
decltype(Candidate), Args...>` of `fill_vtable_entry`: the candidate is
invocable with the argument pack alone, the erased receiver excluded. -/
def invocableWithArgsOnly {V A R : Type} : Selector V A R → Bool
  | .free _ => true
  | .member _ => false

/-- Holds when the selector is directly invocable with the
erased-receiver-plus-arguments shape, the receiver not unerased: the shape
`Ret(Any, Args...)` where `Any` is the opaque storage reference.  Neither
selector shape the sources produce takes the opaque storage reference as its
receiver, so this is false for both. -/
def invocableWithErasedRecv {V A R : Type} : Selector V A R → Bool
  | .free _ => false
  | .member _ => false

end Selector

/-- The erased shape of one virtual-table entry after `vtable_entry`
normalization: it receives the storage cell (the `any &`), the heap, and the
forwarded arguments, and yields the updated heap and the result.  `none`
models C++ undefined behaviour (unerasing an empty or dangling cell). -/
def Entry (V A R : Type) : Type :=
  Cell → Store V → A → Option (Store V × R)

/-- Embeds `poly_vtable::fill_vtable_entry` (`poly.hpp` lines 88-97): if the
candidate is invocable with the argument pack alone, the installed entry
invokes it on the arguments, ignoring the erased receiver; otherwise the
installed entry unerases the storage reference to the concrete type
(`any_cast<constness_as_t<Type, Any> &>`) and invokes the candidate with the
concrete receiver and the forwarded arguments. -/
def fill_vtable_entry {V A R : Type} (sel : Selector V A R) : Entry V A R :=
  match sel with
  | .free f => fun _ s a => some (s, f a)
  | .member f => fun c s a =>
      match c.data with
      | none => none
      | some addr =>
          let (v', r) := f (s.mem addr) a
          some (s.write addr v', r)

/-- The §4.2 installation algorithm exactly as the specification words it,
for comparison with `fill_vtable_entry`.  Step 2: a selector directly
invocable with the erased-receiver-plus-arguments shape without unerasing is
installed unchanged; neither selector shape the sources produce has that
shape (none takes the opaque storage reference as its receiver), so this
step never applies here.  Step 3: otherwise an adapter is synthesized that
unerases the storage reference to the concrete type and invokes the
selector with the concrete receiver and the forwarded arguments; this fits
a receiver-taking selector, but a selector invocable with the arguments
alone has no receiver parameter, so prepending the concrete receiver does
not type-check and the selector cannot be adapted (`none`), which §4.2's
failure modes make a build-time error. -/
def specFillEntry {V A R : Type} : Selector V A R → Option (Entry V A R)
  | .member f => some (fun c s a =>
      match c.data with
      | none => none
      | some addr =>
          let (v', r) := f (s.mem addr) a
          some (s.write addr v', r))
  | .free _ => none

/-- A concept descriptor together with its implementation mapping: `impl t`
is the ordered selector list `poly_impl<Concept, Type>` for the concrete
type `t`, and `cid` is the concept's identity (its declaration site). -/
structure Concept (V A R : Type) where
  cid : Nat
  impl : TypeId → List (Selector V A R)

/-- Embeds `poly_vtable::fill_vtable` (`poly.hpp` lines 99-104): the table
for a (concept, type) pair is the selector list with every entry installed
by `fill_vtable_entry`. -/
def fill_vtable {V A R : Type} (C : Concept V A R) (t : TypeId) :
    List (Entry V A R) :=
  (C.impl t).map fill_vtable_entry

/-- Identity (address) of a materialized virtual table.  In C++ the table is
a function-local static of `poly_vtable<Concept>::instance<Type>()`, one
object per (concept, type) specialization, so its address is determined by
the pair; the embedding represents the address by the pair itself. -/
structure VTableAddr where
  cid : Nat
  ty : TypeId
deriving DecidableEq, Repr

/-- Embeds `poly_vtable<Concept>::instance<Type>()` (`poly.hpp` lines
115-119): returns the address of the static table for the pair.  C++ static
local semantics materialize the table once per specialization; accordingly
the embedding is a pure function of the concept and type identities. -/
def poly_vtable_instance {V A R : Type} (C : Concept V A R) (t : TypeId) :
    VTableAddr :=
  ⟨C.cid, t⟩

/-- The table contents found at a materialized table address. -/
def tableAt {V A R : Type} (C : Concept V A R) (vt : VTableAddr) :
    List (Entry V A R) :=
  fill_vtable C vt.ty

/-- Embeds `entt::poly<Concept>` (`poly.hpp` lines 213-350): a Storage Cell
together with a pointer to a virtual table (`none` models the null
pointer). -/
structure Poly where
  storage : Cell
  vtable : Option VTableAddr
deriving DecidableEq, Repr

/-- Embeds the default constructor (`poly.hpp` lines 220-223): empty
storage, null vtable pointer. -/
def polyDefault : Poly :=
  ⟨.empty, none⟩

/-- Embeds the in-place constructor `poly(std::in_place_type_t<Type>,
args...)` (`poly.hpp` lines 231-235): the storage owns a newly constructed
value and the vtable pointer is `poly_vtable<Concept>::instance<Type>()`. -/
def polyInPlace {V A R : Type} (C : Concept V A R) (t : TypeId) (v : V)
    (s : Store V) : Store V × Poly :=
  let (s', c) := Cell.mkOwned s t v
  (s', ⟨c, some (poly_vtable_instance C t)⟩)

/-- Embeds the aliasing constructor `poly(std::reference_wrapper<Type>)`
(`poly.hpp` lines 242-246): the storage aliases the externally owned object
at address `a` and the vtable pointer is the instance for its type. -/
def polyRefWrap {V A R : Type} (C : Concept V A R) (t : TypeId) (a : Nat) :
    Poly :=
  ⟨Cell.mkAliased a t, some (poly_vtable_instance C t)⟩

/-- Embeds the converting constructor `poly(Type &&)` (`poly.hpp` lines
253-256): it decays the argument type and delegates to the in-place owning
constructor with the value. -/
def polyFromValue {V A R : Type} (C : Concept V A R) (t : TypeId) (v : V)
    (s : Store V) : Store V × Poly :=
  polyInPlace C t v s

/-- Embeds the defaulted copy constructor (`poly.hpp` line 262): memberwise
copy, i.e. the storage cell is copied per its own copy contract and the
vtable pointer is copied. -/
def polyCopy {V : Type} (p : Poly) (s : Store V) : Store V × Poly :=
  let (s', c) := Cell.copy s p.storage
  (s', ⟨c, p.vtable⟩)

/-- Embeds the move constructor (`poly.hpp` lines 268-272): the destination
is first constructed empty and then swapped with the source; the result is
(destination, source after the move). -/
def polyMoveCtor (p : Poly) : Poly × Poly :=
  (⟨p.storage, p.vtable⟩, polyDefault)

/-- Embeds `operator=(poly other)` (`poly.hpp` lines 279-282): `other` is
the by-value parameter (already copy- or move-constructed); it is swapped
with the destination.  The result is (new destination, state left in the
parameter, destroyed at return). -/
def polyAssignFrom (dst other : Poly) : Poly × Poly :=
  (other, dst)

/-- Move assignment `b = std::move(a)` through `operator=(poly other)`: the
parameter is move-constructed from `a`, then swapped into `b`.  The result
is (new `b`, new `a`). -/
def polyMoveAssign (dst a : Poly) : Poly × Poly :=
  let (tmp, a') := polyMoveCtor a
  ((polyAssignFrom dst tmp).1, a')

/-- Copy assignment `b = a` through `operator=(poly other)`: the parameter
is copy-constructed from `a`, then swapped into `b`.  The result is the
updated store and the new `b` (`a` is untouched). -/
def polyCopyAssign {V : Type} (dst a : Poly) (s : Store V) : Store V × Poly :=
  let (s', tmp) := polyCopy a s
  (s', (polyAssignFrom dst tmp).1)

namespace Poly

/-- Embeds `poly::type()` (`poly.hpp` lines 288-290): the storage cell's
type identity; `none` is the empty identity `type_info{}`. -/
def type (p : Poly) : Option TypeId :=
  p.storage.typeId

/-- Embeds `poly::data() const` (`poly.hpp` lines 296-298): the storage
cell's opaque data pointer, null (`none`) when empty. -/
def data (p : Poly) : Option Nat :=
  p.storage.data

/-- Embeds the non-const `poly::data()` (`poly.hpp` lines 301-303): defined
as a `const_cast` of the const overload's result, hence the same address. -/
def dataMut (p : Poly) : Option Nat :=
  p.data

/-- Embeds `poly::emplace<Type>(args...)` (`poly.hpp` lines 311-315): the
storage cell's contents are replaced by a newly constructed owning value and
the vtable pointer is rebound to the instance for the new type. -/
def emplace {V A R : Type} (C : Concept V A R) (p : Poly) (t : TypeId)
    (v : V) (s : Store V) : Store V × Poly :=
  let (s', c) := Cell.emplaceCell s p.storage t v
  (s', ⟨c, some (poly_vtable_instance C t)⟩)

/-- Embeds `poly::ref()` (`poly.hpp` lines 321-326): a fresh poly whose
storage aliases this poly's current contents and whose vtable pointer is
copied. -/
def ref (p : Poly) : Poly :=
  ⟨p.storage.ref, p.vtable⟩

/-- Embeds `poly::operator bool()` (`poly.hpp` lines 332-334): true iff the
vtable pointer is non-null. -/
def toBool (p : Poly) : Bool :=
  p.vtable.isSome

end Poly

/-- Embeds the friend `swap(poly &, poly &)` (`poly.hpp` lines 341-345):
exchanges the storage cells and the vtable pointers of the two holders. -/
def polySwap (a b : Poly) : Poly × Poly :=
  (⟨b.storage, b.vtable⟩, ⟨a.storage, a.vtable⟩)

/-- Invocation of the entry at index `i` of a table (`std::get<Member>`
applied to the entry, then the call) on a storage cell: the second half of
`poly_base::invoke`.  An out-of-range index is `none`. -/
def dispatch {V A R : Type} (tbl : List (Entry V A R)) (c : Cell) (i : Nat)
    (a : A) (s : Store V) : Option (Store V × R) :=
  match tbl.get? i with
  | none => none
  | some e => e c s a

/-- Embeds operation dispatch, `poly_base::invoke` (`poly.hpp` lines
145-156) as reached through `poly_call<Member>`: fetch the table the
holder's vtable pointer refers to and invoke its entry at index `i` on the
holder's storage and the arguments.  A null vtable pointer (dispatch on an
empty holder) is undefined behaviour, `none`. -/
def polyInvoke {V A R : Type} (C : Concept V A R) (p : Poly) (i : Nat)
    (a : A) (s : Store V) : Option (Store V × R) :=
  match p.vtable with
  | none => none
  | some vt => dispatch (tableAt C vt) p.storage i a s

/-- The value a holder observes through its storage: the heap object at its
data pointer (what `get()`-style operations read). -/
def observe {V : Type} (p : Poly) (s : Store V) : Option V :=
  p.data.map s.mem

/-- The concrete test concept of `test/entt/poly/poly.cpp`, acting on the
`value` field of the concrete type `impl` (type identity 1): operation 0 is
`incr`, 1 is `set(v)`, 2 is `get()`, 3 is the `decr` adapter
(`self.set(self.get() - 1)`), 4 is the `mul(v)` adapter
(`v * self.get()`). -/
def Clazz : Concept Int Int Int :=
  ⟨0, fun t =>
    if t = 1 then
      [ Selector.member fun v _ => (v + 1, 0),
        Selector.member fun _ a => (a, 0),
        Selector.member fun v _ => (v, v),
        Selector.member fun v _ => (v - 1, 0),
        Selector.member fun v a => (v, v * a) ]
    else []⟩

/-- An initial heap with nothing allocated. -/
def store0 : Store Int :=
  ⟨fun _ => 0, 0⟩

theorem Store.write_mem_self {V : Type} (s : Store V) (a : Nat) (v : V) :
    (s.write a v).mem a = v := by
  simp [Store.write]

theorem Store.write_mem_ne {V : Type} (s : Store V) (a b : Nat) (v : V)
    (h : b ≠ a) : (s.write a v).mem b = s.mem b := by
  simp [Store.write, h]

theorem Store.write_next {V : Type} (s : Store V) (a : Nat) (v : V) :
    (s.write a v).next = s.next := rfl

theorem Store.alloc_mem_self {V : Type} (s : Store V) (v : V) :
    (s.alloc v).1.mem (s.alloc v).2 = v := by
  simp [Store.alloc]

theorem Store.alloc_mem_lt {V : Type} (s : Store V) (v : V) (b : Nat)
    (h : b < s.next) : (s.alloc v).1.mem b = s.mem b := by
  simp [Store.alloc]
  intro hb
  omega

theorem Store.alloc_snd {V : Type} (s : Store V) (v : V) :
    (s.alloc v).2 = s.next := rfl

theorem Store.alloc_next {V : Type} (s : Store V) (v : V) :
    (s.alloc v).1.next = s.next + 1 := rfl

theorem Cell.copy_snd_typeId {V : Type} (s : Store V) (c : Cell) :
    ((Cell.copy s c).2).typeId = c.typeId := by
  cases c <;> simp [Cell.copy, Cell.typeId]

theorem Cell.copy_snd_eq_empty {V : Type} (s : Store V) (c : Cell) :
    (Cell.copy s c).2 = Cell.empty ↔ c = Cell.empty := by
  cases c <;> simp [Cell.copy]

theorem Cell.ref_typeId (c : Cell) : c.ref.typeId = c.typeId := by
  cases c <;> rfl

theorem Cell.ref_eq_empty (c : Cell) : c.ref = Cell.empty ↔ c = Cell.empty := by
  cases c <;> simp [Cell.ref]

theorem Cell.ref_data (c : Cell) : c.ref.data = c.data := by
  cases c <;> rfl

/-- The Holder invariant of §3: the vtable pointer is null iff the storage
cell is empty, and a non-null pointer is exactly the table materialized for
the concrete type the cell currently holds. -/
def Inv {V A R : Type} (C : Concept V A R) (p : Poly) : Prop :=
  (p.vtable = none ↔ p.storage = Cell.empty) ∧
  (∀ vt, p.vtable = some vt →
    ∃ t, p.storage.typeId = some t ∧ vt = poly_vtable_instance C t)

/-- The holders reachable through the public operations of `poly`: default
construction, in-place owning construction, construction from a value,
construction from a reference wrapper, copy, move, assignment, `emplace`,
`ref` and `swap`. -/
inductive Reachable {V A R : Type} (C : Concept V A R) : Poly → Prop where
  | dflt : Reachable C polyDefault
  | inPlace (s : Store V) (t : TypeId) (v : V) :
      Reachable C (polyInPlace C t v s).2
  | refWrap (t : TypeId) (a : Nat) : Reachable C (polyRefWrap C t a)
  | fromValue (s : Store V) (t : TypeId) (v : V) :
      Reachable C (polyFromValue C t v s).2
  | copy (s : Store V) {p : Poly} :
      Reachable C p → Reachable C (polyCopy p s).2
  | moveDst {p : Poly} : Reachable C p → Reachable C (polyMoveCtor p).1
  | moveSrc {p : Poly} : Reachable C p → Reachable C (polyMoveCtor p).2
  | assignDst {p q : Poly} :
      Reachable C p → Reachable C q → Reachable C (polyAssignFrom p q).1
  | assignSrc {p q : Poly} :
      Reachable C p → Reachable C q → Reachable C (polyAssignFrom p q).2
  | emplaceStep (s : Store V) (t : TypeId) (v : V) {p : Poly} :
      Reachable C p → Reachable C (Poly.emplace C p t v s).2
  | refStep {p : Poly} : Reachable C p → Reachable C p.ref
  | swapL {p q : Poly} :
      Reachable C p → Reachable C q → Reachable C (polySwap p q).1
  | swapR {p q : Poly} :
      Reachable C p → Reachable C q → Reachable C (polySwap p q).2

theorem inv_default {V A R : Type} (C : Concept V A R) : Inv C polyDefault := by
  refine ⟨by simp [polyDefault], ?_⟩
  intro vt h
  simp [polyDefault] at h

theorem inv_owned {V A R : Type} (C : Concept V A R) (a : Nat) (t : TypeId) :
    Inv C ⟨Cell.owned a t, some (poly_vtable_instance C t)⟩ := by
  refine ⟨by simp, ?_⟩
  intro vt h
  exact ⟨t, rfl, by simpa using h.symm⟩

theorem inv_of_reachable {V A R : Type} {C : Concept V A R} {p : Poly}
    (h : Reachable C p) : Inv C p := by
  induction h with
  | dflt => exact inv_default C
  | inPlace s t v =>
      simpa [polyInPlace, Cell.mkOwned, Store.alloc] using
        inv_owned C s.next t
  | refWrap t a =>
      refine ⟨by simp [polyRefWrap, Cell.mkAliased], ?_⟩
      intro vt h
      exact ⟨t, rfl, by simpa [polyRefWrap, Cell.mkAliased] using h.symm⟩
  | fromValue s t v =>
      simpa [polyFromValue, polyInPlace, Cell.mkOwned, Store.alloc] using
        inv_owned C s.next t
  | copy s _ ih =>
      obtain ⟨h1, h2⟩ := ih
      refine ⟨?_, ?_⟩
      · simpa [polyCopy, Cell.copy_snd_eq_empty] using h1
      · intro vt hvt
        obtain ⟨t, ht, hinst⟩ := h2 vt (by simpa [polyCopy] using hvt)
        exact ⟨t, by simpa [polyCopy, Cell.copy_snd_typeId] using ht, hinst⟩
  | moveDst _ ih => exact ih
  | moveSrc _ => exact inv_default C
  | assignDst _ _ _ ihq => exact ihq
  | assignSrc _ _ ihp _ => exact ihp
  | emplaceStep s t v _ _ =>
      simpa [Poly.emplace, Cell.emplaceCell, Store.alloc] using
        inv_owned C s.next t
  | refStep _ ih =>
      obtain ⟨h1, h2⟩ := ih
      refine ⟨by simpa [Poly.ref, Cell.ref_eq_empty] using h1, ?_⟩
      intro vt hvt
      obtain ⟨t, ht, hinst⟩ := h2 vt (by simpa [Poly.ref] using hvt)
      exact ⟨t, by simpa [Poly.ref, Cell.ref_typeId] using ht, hinst⟩
  | swapL _ _ _ ihq => exact ihq
  | swapR _ _ ihp _ => exact ihp

/-- C1: for every holder reachable through the public operations, the
vtable pointer is null iff the storage cell is empty; a non-null vtable
pointer is exactly the table materialized for the concrete type the storage
cell currently holds; and the emptiness test `operator bool` is true iff
the vtable pointer is non-null iff the storage cell is non-empty. -/
theorem reachable_vtable_null_iff_storage_empty {V A R : Type}
    (C : Concept V A R) (p : Poly) (h : Reachable C p) :
    (p.vtable = none ↔ p.storage = Cell.empty) ∧
    (∀ vt, p.vtable = some vt →
      ∃ t, p.storage.typeId = some t ∧ vt = poly_vtable_instance C t) ∧
    (p.toBool = true ↔ ¬ p.vtable = none) ∧
    (p.toBool = true ↔ ¬ p.storage = Cell.empty) := by
  obtain ⟨h1, h2⟩ := inv_of_reachable h
  refine ⟨h1, h2, ?_, ?_⟩
  · simp [Poly.toBool, Option.isSome_iff_ne_none]
  · rw [← h1]
    simp [Poly.toBool, Option.isSome_iff_ne_none]

theorem fill_vtable_entry_congr_data {V A R : Type} (sel : Selector V A R)
    (c c' : Cell) (h : c.data = c'.data) (s : Store V) (a : A) :
    fill_vtable_entry sel c s a = fill_vtable_entry sel c' s a := by
  cases sel <;> simp [fill_vtable_entry, h]

theorem polyInvoke_eq_none {V A R : Type} (C : Concept V A R) (p : Poly)
    (h : p.vtable = none) (i : Nat) (a : A) (s : Store V) :
    polyInvoke C p i a s = none := by
  simp [polyInvoke, h]

theorem polyInvoke_eq_dispatch {V A R : Type} (C : Concept V A R) (p : Poly)
    (vt : VTableAddr) (h : p.vtable = some vt) (i : Nat) (a : A)
    (s : Store V) :
    polyInvoke C p i a s = dispatch (tableAt C vt) p.storage i a s := by
  simp [polyInvoke, h]

theorem dispatch_eq_none {V A R : Type} (tbl : List (Entry V A R)) (c : Cell)
    (i : Nat) (a : A) (s : Store V) (h : tbl.get? i = none) :
    dispatch tbl c i a s = none := by
  rw [List.get?_eq_getElem?] at h
  simp [dispatch, h]

theorem dispatch_eq_entry {V A R : Type} (tbl : List (Entry V A R))
    (c : Cell) (i : Nat) (a : A) (s : Store V) (e : Entry V A R)
    (h : tbl.get? i = some e) : dispatch tbl c i a s = e c s a := by
  rw [List.get?_eq_getElem?] at h
  simp [dispatch, h]

theorem tableAt_get {V A R : Type} (C : Concept V A R) (vt : VTableAddr)
    (i : Nat) :
    (tableAt C vt).get? i = ((C.impl vt.ty).get? i).map fill_vtable_entry := by
  simp [tableAt, fill_vtable]

/-- An installed table entry reads its receiver only through the cell's data
pointer, so dispatch through two holders sharing data pointer and vtable
pointer coincides. -/
theorem polyInvoke_congr {V A R : Type} (C : Concept V A R) {p q : Poly}
    (hd : p.storage.data = q.storage.data) (hv : p.vtable = q.vtable)
    (i : Nat) (a : A) (s : Store V) :
    polyInvoke C p i a s = polyInvoke C q i a s := by
  cases hq : q.vtable with
  | none =>
      rw [polyInvoke_eq_none C p (hv.trans hq) i a s,
        polyInvoke_eq_none C q hq i a s]
  | some vt =>
      rw [polyInvoke_eq_dispatch C p vt (hv.trans hq) i a s,
        polyInvoke_eq_dispatch C q vt hq i a s]
      cases hE : (tableAt C vt).get? i with
      | none =>
          rw [dispatch_eq_none _ _ i a s hE, dispatch_eq_none _ _ i a s hE]
      | some e =>
          rw [dispatch_eq_entry _ _ i a s e hE,
            dispatch_eq_entry _ _ i a s e hE]
          rw [tableAt_get] at hE
          obtain ⟨sel, _, he⟩ := Option.map_eq_some'.mp hE
          rw [← he]
          exact fill_vtable_entry_congr_data sel _ _ hd s a

/-- An installed table entry writes the heap only at its receiver's data
address: dispatch through a holder leaves every other address unchanged,
and never changes the allocation frontier. -/
theorem polyInvoke_frame {V A R : Type} (C : Concept V A R) (q : Poly)
    (i : Nat) (a : A) (s s₂ : Store V) (r : R)
    (h : polyInvoke C q i a s = some (s₂, r)) :
    (∀ j, q.storage.data ≠ some j → s₂.mem j = s.mem j) ∧ s₂.next = s.next := by
  cases hq : q.vtable with
  | none => rw [polyInvoke_eq_none C q hq i a s] at h; exact absurd h (by simp)
  | some vt =>
      rw [polyInvoke_eq_dispatch C q vt hq i a s] at h
      cases hE : (tableAt C vt).get? i with
      | none =>
          rw [dispatch_eq_none _ _ i a s hE] at h
          exact absurd h (by simp)
      | some e =>
          rw [dispatch_eq_entry _ _ i a s e hE] at h
          rw [tableAt_get] at hE
          obtain ⟨sel, _, he⟩ := Option.map_eq_some'.mp hE
          rw [← he] at h
          cases sel with
          | free f =>
              simp [fill_vtable_entry] at h
              rw [← h.1]
              exact ⟨fun j _ => rfl, rfl⟩
          | member f =>
              cases hd : q.storage.data with
              | none => simp [fill_vtable_entry, hd] at h
              | some addr =>
                  simp [fill_vtable_entry, hd] at h
                  refine ⟨fun j hj => ?_, ?_⟩
                  · have hja : j ≠ addr := fun hcontra =>
                      hj (by simp [hd, hcontra])
                    rw [← h.1]
                    exact Store.write_mem_ne s addr j _ hja
                  · rw [← h.1]
                    rfl

/-- C2: the virtual-table factory is a single materialization per
(concept, type) pair: the table address `poly_vtable::instance` yields is a
function of the pair alone and refers to the table filled for that pair,
and two holders constructed owning independently created values of the same
concrete type under the same concept (whether in place or from a value)
carry pointer-equal vtables. -/
theorem poly_vtable_instance_unique {V A R : Type} (C : Concept V A R)
    (t : TypeId) (v₁ v₂ : V) (s₁ s₂ : Store V) :
    tableAt C (poly_vtable_instance C t) = fill_vtable C t ∧
    (polyInPlace C t v₁ s₁).2.vtable = (polyInPlace C t v₂ s₂).2.vtable ∧
    (polyFromValue C t v₁ s₁).2.vtable = (polyInPlace C t v₂ s₂).2.vtable ∧
    (polyInPlace C t v₁ s₁).2.vtable = some (poly_vtable_instance C t) := by
  exact ⟨rfl, rfl, rfl, rfl⟩

/-- C4: move construction and move assignment (both implemented by swapping
with a freshly constructed empty holder) leave the source empty (emptiness
test false, null vtable, empty storage cell) and hand the source's storage
cell and vtable pointer to the destination unchanged, so the destination's
`type()`, `data()` and dispatch results coincide with the source's pre-move
ones. -/
theorem poly_move_transfers_and_empties {V A R : Type} (C : Concept V A R)
    (p b : Poly) :
    (polyMoveCtor p).2 = polyDefault ∧
    (polyMoveCtor p).2.toBool = false ∧
    (polyMoveCtor p).2.vtable = none ∧
    (polyMoveCtor p).2.storage = Cell.empty ∧
    (polyMoveCtor p).1.storage = p.storage ∧
    (polyMoveCtor p).1.vtable = p.vtable ∧
    (polyMoveCtor p).1.type = p.type ∧
    (polyMoveCtor p).1.data = p.data ∧
    (∀ i a s, polyInvoke C (polyMoveCtor p).1 i a s = polyInvoke C p i a s) ∧
    (polyMoveAssign b p).2 = polyDefault ∧
    (polyMoveAssign b p).2.toBool = false ∧
    (polyMoveAssign b p).1.storage = p.storage ∧
    (polyMoveAssign b p).1.vtable = p.vtable ∧
    (polyMoveAssign b p).1.type = p.type ∧
    (polyMoveAssign b p).1.data = p.data ∧
    (∀ i a s, polyInvoke C (polyMoveAssign b p).1 i a s =
      polyInvoke C p i a s) := by
  refine ⟨rfl, rfl, rfl, rfl, rfl, rfl, rfl, rfl, fun i a s => ?_, rfl, rfl,
    rfl, rfl, rfl, rfl, fun i a s => ?_⟩ <;>
    exact polyInvoke_congr C rfl rfl i a s

/-- C8: a default-constructed holder, and more generally every holder in
the Empty state (empty storage cell, null vtable pointer), answers false to
the emptiness test, the empty type identity to `type()`, and a null pointer
from both `data()` overloads. -/
theorem poly_empty_state_observers (p : Poly)
    (h1 : p.storage = Cell.empty) (h2 : p.vtable = none) :
    p.toBool = false ∧ p.type = none ∧ p.data = none ∧ p.dataMut = none ∧
    polyDefault.toBool = false ∧ polyDefault.type = none ∧
    polyDefault.data = none ∧ polyDefault.dataMut = none ∧
    polyDefault.storage = Cell.empty ∧ polyDefault.vtable = none := by
  refine ⟨?_, ?_, ?_, ?_, rfl, rfl, rfl, rfl, rfl, rfl⟩ <;>
    simp [Poly.toBool, Poly.type, Poly.data, Poly.dataMut, h1, h2,
      Cell.typeId, Cell.data]

/-- Witness for C8: the default-constructed holder is in the Empty state. -/
theorem poly_empty_state_observers_witness :
    polyDefault.toBool = false ∧ polyDefault.type = none ∧
    polyDefault.data = none ∧ polyDefault.dataMut = none ∧
    polyDefault.toBool = false ∧ polyDefault.type = none ∧
    polyDefault.data = none ∧ polyDefault.dataMut = none ∧
    polyDefault.storage = Cell.empty ∧ polyDefault.vtable = none :=
  poly_empty_state_observers polyDefault rfl rfl

/-- C9: `ref()` is total on empty holders and preserves the null-iff-empty
invariant: on a holder in the Empty state it returns a holder that is again
empty (emptiness test false, null vtable pointer, empty cell, null data),
so §8's promise that `a.ref()` is non-empty requires `a` non-empty. -/
theorem poly_ref_on_empty (p : Poly)
    (h1 : p.storage = Cell.empty) (h2 : p.vtable = none) :
    p.ref = polyDefault ∧ p.ref.toBool = false ∧ p.ref.vtable = none ∧
    p.ref.storage = Cell.empty ∧ p.ref.data = none ∧
    (p.ref.vtable = none ↔ p.ref.storage = Cell.empty) := by
  have : p.ref = polyDefault := by
    cases p
    simp_all [Poly.ref, polyDefault, Cell.ref]
  refine ⟨this, ?_, ?_, ?_, ?_, ?_⟩ <;> rw [this] <;> simp [polyDefault,
    Poly.toBool, Poly.data, Cell.data]

/-- Witness for C9: `ref()` of a default-constructed holder. -/
theorem poly_ref_on_empty_witness :
    polyDefault.ref = polyDefault ∧ polyDefault.ref.toBool = false ∧
    polyDefault.ref.vtable = none ∧
    polyDefault.ref.storage = Cell.empty ∧ polyDefault.ref.data = none ∧
    (polyDefault.ref.vtable = none ↔
      polyDefault.ref.storage = Cell.empty) :=
  poly_ref_on_empty polyDefault rfl rfl

/-- C7: for a non-empty holder `a`, `a.ref()` is non-empty, shares the data
pointer with `a` (it aliases the current value rather than copying it),
carries the same vtable pointer, and dispatches exactly as `a` does, so
mutations through the view are observable in `a`'s underlying value; the
original holder itself is unchanged by the call. -/
theorem poly_ref_shares_value {V A R : Type} (C : Concept V A R) (p : Poly)
    (h : p.toBool = true) :
    p.ref.toBool = true ∧ p.ref.data = p.data ∧ p.ref.vtable = p.vtable ∧
    (∀ i a s, polyInvoke C p.ref i a s = polyInvoke C p i a s) := by
  refine ⟨?_, ?_, rfl, fun i a s => ?_⟩
  · simpa [Poly.toBool, Poly.ref] using h
  · simp [Poly.data, Poly.ref, Cell.ref_data]
  · exact @polyInvoke_congr V A R C p.ref p (Cell.ref_data p.storage) rfl i a s

/-- Witness for C7: the view of a concrete in-place constructed holder. -/
theorem poly_ref_shares_value_witness :
    (polyInPlace Clazz 1 (3 : Int) store0).2.ref.toBool = true ∧
    (polyInPlace Clazz 1 (3 : Int) store0).2.ref.data =
      (polyInPlace Clazz 1 (3 : Int) store0).2.data ∧
    (polyInPlace Clazz 1 (3 : Int) store0).2.ref.vtable =
      (polyInPlace Clazz 1 (3 : Int) store0).2.vtable ∧
    (∀ i a s, polyInvoke Clazz (polyInPlace Clazz 1 (3 : Int) store0).2.ref
      i a s = polyInvoke Clazz (polyInPlace Clazz 1 (3 : Int) store0).2
      i a s) :=
  poly_ref_shares_value Clazz _ rfl

/-- C6: for a holder in any prior state (Empty, Owning of any type, or
Aliasing), `emplace` leaves it non-empty and owning a newly constructed
value of the new type, reports the new type identity, rebinds the vtable
pointer to the table materialized for (concept, new type), and every
subsequent dispatch goes through that table; whenever the prior binding
was the table of a different type, the rebound pointer differs from the
old one, so dispatch no longer goes through the prior type's table. -/
theorem poly_emplace_rebinds {V A R : Type} (C : Concept V A R) (p : Poly)
    (t' : TypeId) (v : V) (s : Store V) :
    (Poly.emplace C p t' v s).2.toBool = true ∧
    (Poly.emplace C p t' v s).2.storage = Cell.owned s.next t' ∧
    (Poly.emplace C p t' v s).2.type = some t' ∧
    observe (Poly.emplace C p t' v s).2 (Poly.emplace C p t' v s).1 =
      some v ∧
    (Poly.emplace C p t' v s).2.vtable =
      some (poly_vtable_instance C t') ∧
    (∀ tOld, p.vtable = some (poly_vtable_instance C tOld) → tOld ≠ t' →
      (Poly.emplace C p t' v s).2.vtable ≠ p.vtable) ∧
    (∀ i a σ, polyInvoke C (Poly.emplace C p t' v s).2 i a σ =
      dispatch (fill_vtable C t')
        (Poly.emplace C p t' v s).2.storage i a σ) := by
  refine ⟨rfl, rfl, rfl, ?_, rfl, fun tOld hvt ht => ?_, fun i a σ => rfl⟩
  · simp [observe, Poly.emplace, Cell.emplaceCell, Store.alloc, Poly.data,
      Cell.data]
  · rw [hvt]
    intro hcontra
    simp only [Poly.emplace, Option.some.injEq] at hcontra
    exact ht (congrArg VTableAddr.ty hcontra).symm

/-- Witness for C6: a holder bound to type 2 re-emplaced with type 1; the
inner implication is discharged at the concrete prior type. -/
theorem poly_emplace_rebinds_witness :
    (Poly.emplace Clazz (polyInPlace Clazz 2 (5 : Int) store0).2 1 (7 : Int)
      (polyInPlace Clazz 2 (5 : Int) store0).1).2.toBool = true ∧
    (Poly.emplace Clazz (polyInPlace Clazz 2 (5 : Int) store0).2 1 (7 : Int)
      (polyInPlace Clazz 2 (5 : Int) store0).1).2.storage =
        Cell.owned (polyInPlace Clazz 2 (5 : Int) store0).1.next 1 ∧
    (Poly.emplace Clazz (polyInPlace Clazz 2 (5 : Int) store0).2 1 (7 : Int)
      (polyInPlace Clazz 2 (5 : Int) store0).1).2.type = some 1 ∧
    observe (Poly.emplace Clazz (polyInPlace Clazz 2 (5 : Int) store0).2 1
        (7 : Int) (polyInPlace Clazz 2 (5 : Int) store0).1).2
      (Poly.emplace Clazz (polyInPlace Clazz 2 (5 : Int) store0).2 1 (7 : Int)
        (polyInPlace Clazz 2 (5 : Int) store0).1).1 = some 7 ∧
    (Poly.emplace Clazz (polyInPlace Clazz 2 (5 : Int) store0).2 1 (7 : Int)
      (polyInPlace Clazz 2 (5 : Int) store0).1).2.vtable =
        some (poly_vtable_instance Clazz 1) ∧
    (Poly.emplace Clazz (polyInPlace Clazz 2 (5 : Int) store0).2 1 (7 : Int)
      (polyInPlace Clazz 2 (5 : Int) store0).1).2.vtable ≠
        (polyInPlace Clazz 2 (5 : Int) store0).2.vtable ∧
    (∀ i a σ, polyInvoke Clazz (Poly.emplace Clazz
        (polyInPlace Clazz 2 (5 : Int) store0).2 1 (7 : Int)
        (polyInPlace Clazz 2 (5 : Int) store0).1).2 i a σ =
      dispatch (fill_vtable Clazz 1)
        (Poly.emplace Clazz (polyInPlace Clazz 2 (5 : Int) store0).2 1
          (7 : Int) (polyInPlace Clazz 2 (5 : Int) store0).1).2.storage
        i a σ) :=
  ⟨(poly_emplace_rebinds Clazz (polyInPlace Clazz 2 (5 : Int) store0).2 1 7
      (polyInPlace Clazz 2 (5 : Int) store0).1).1,
   (poly_emplace_rebinds Clazz (polyInPlace Clazz 2 (5 : Int) store0).2 1 7
      (polyInPlace Clazz 2 (5 : Int) store0).1).2.1,
   (poly_emplace_rebinds Clazz (polyInPlace Clazz 2 (5 : Int) store0).2 1 7
      (polyInPlace Clazz 2 (5 : Int) store0).1).2.2.1,
   (poly_emplace_rebinds Clazz (polyInPlace Clazz 2 (5 : Int) store0).2 1 7
      (polyInPlace Clazz 2 (5 : Int) store0).1).2.2.2.1,
   (poly_emplace_rebinds Clazz (polyInPlace Clazz 2 (5 : Int) store0).2 1 7
      (polyInPlace Clazz 2 (5 : Int) store0).1).2.2.2.2.1,
   (poly_emplace_rebinds Clazz (polyInPlace Clazz 2 (5 : Int) store0).2 1 7
      (polyInPlace Clazz 2 (5 : Int) store0).1).2.2.2.2.2.1 2 rfl
      (by decide),
   (poly_emplace_rebinds Clazz (polyInPlace Clazz 2 (5 : Int) store0).2 1 7
      (polyInPlace Clazz 2 (5 : Int) store0).1).2.2.2.2.2.2⟩

/-- C10: the converting constructor delegates to the in-place owning
constructor, so it always produces a holder in the Owning state that owns
its own copy of the value (never an aliasing holder), and mutating through
the holder's operations leaves every previously allocated object — in
particular the lvalue the holder was constructed from — unchanged; the
Aliasing state arises from the reference-wrapper constructor and from
`ref()`, which turns an owning cell into an aliasing one. -/
theorem poly_value_ctor_owns {V A R : Type} (C : Concept V A R) (t : TypeId)
    (v : V) (s : Store V) (a0 : Nat) (h0 : a0 < s.next) :
    polyFromValue C t v s = polyInPlace C t v s ∧
    (polyFromValue C t v s).2.storage = Cell.owned s.next t ∧
    (∀ b u, (polyFromValue C t v s).2.storage ≠ Cell.aliased b u) ∧
    (polyFromValue C t v s).1.mem a0 = s.mem a0 ∧
    (∀ i arg s₂ r,
      polyInvoke C (polyFromValue C t v s).2 i arg (polyFromValue C t v s).1 =
        some (s₂, r) → s₂.mem a0 = s.mem a0) ∧
    (polyRefWrap C t a0).storage = Cell.aliased a0 t ∧
    (Cell.owned a0 t).ref = Cell.aliased a0 t := by
  refine ⟨rfl, rfl, fun b u => by simp [polyFromValue, polyInPlace,
    Cell.mkOwned, Store.alloc], ?_, fun i arg s₂ r hinv => ?_, rfl, rfl⟩
  · exact Store.alloc_mem_lt s v a0 h0
  · have hfr := polyInvoke_frame C _ i arg _ s₂ r hinv
    have hne : (polyFromValue C t v s).2.storage.data ≠ some a0 := by
      simp [polyFromValue, polyInPlace, Cell.mkOwned, Store.alloc, Cell.data]
      omega
    rw [hfr.1 a0 hne]
    exact Store.alloc_mem_lt s v a0 h0

/-- Witness for C10: a value holder built over a one-object heap. -/
theorem poly_value_ctor_owns_witness :
    polyFromValue Clazz 1 (3 : Int) (Store.mk (fun _ => 0) 1) =
      polyInPlace Clazz 1 (3 : Int) (Store.mk (fun _ => 0) 1) ∧
    (polyFromValue Clazz 1 (3 : Int)
      (Store.mk (fun _ => 0) 1)).2.storage = Cell.owned 1 1 ∧
    (∀ b u, (polyFromValue Clazz 1 (3 : Int)
      (Store.mk (fun _ => 0) 1)).2.storage ≠ Cell.aliased b u) ∧
    (polyFromValue Clazz 1 (3 : Int) (Store.mk (fun _ => 0) 1)).1.mem 0 =
      (Store.mk (fun _ => (0 : Int)) 1).mem 0 ∧
    (∀ i arg s₂ r, polyInvoke Clazz
      (polyFromValue Clazz 1 (3 : Int) (Store.mk (fun _ => 0) 1)).2 i arg
      (polyFromValue Clazz 1 (3 : Int) (Store.mk (fun _ => 0) 1)).1 =
        some (s₂, r) →
      s₂.mem 0 = (Store.mk (fun _ => (0 : Int)) 1).mem 0) ∧
    (polyRefWrap Clazz 1 0).storage = Cell.aliased 0 1 ∧
    (Cell.owned 0 1).ref = Cell.aliased 0 1 :=
  poly_value_ctor_owns Clazz 1 3 (Store.mk (fun _ => 0) 1) 0 (by decide)

/-- C5: copying an owning holder deep-copies the value into a fresh object,
so the copy initially observes the same value, but mutating through the
copy's operations leaves the original's observed value unchanged; copying
an aliasing holder shares the referent (the copy equals the original, same
data pointer), so a mutating operation dispatched through the copy changes
the value observed through the original and through the aliased
variable. -/
theorem poly_copy_owning_independent_aliasing_shared {V A R : Type}
    (C : Concept V A R) (pOwn pAli : Poly) (s sA : Store V) (a b : Nat)
    (t u : TypeId)
    (hOwn : pOwn.storage = Cell.owned a t) (ha : a < s.next)
    (hAli : pAli.storage = Cell.aliased b u)
    (hv : pAli.vtable = some (poly_vtable_instance C u)) :
    (polyCopy pOwn s).2.storage = Cell.owned s.next t ∧
    (polyCopy pOwn s).2.vtable = pOwn.vtable ∧
    observe (polyCopy pOwn s).2 (polyCopy pOwn s).1 = observe pOwn s ∧
    observe pOwn (polyCopy pOwn s).1 = observe pOwn s ∧
    (∀ i arg s₂ r,
      polyInvoke C (polyCopy pOwn s).2 i arg (polyCopy pOwn s).1 =
        some (s₂, r) → observe pOwn s₂ = observe pOwn s) ∧
    (polyCopy pAli sA).1 = sA ∧
    (polyCopy pAli sA).2 = pAli ∧
    (polyCopy pAli sA).2.data = pAli.data ∧
    (∀ i f arg s₂ r, (C.impl u).get? i = some (Selector.member f) →
      polyInvoke C (polyCopy pAli sA).2 i arg sA = some (s₂, r) →
      observe pAli s₂ = some (f (sA.mem b) arg).1 ∧
      s₂.mem b = (f (sA.mem b) arg).1) := by
  have hcopyAli : polyCopy pAli sA = (sA, pAli) := by
    cases pAli with
    | mk st vt => simp_all [polyCopy, Cell.copy]
  refine ⟨?_, rfl, ?_, ?_, fun i arg s₂ r hinv => ?_, ?_, ?_, ?_,
    fun i f arg s₂ r himpl hinv => ?_⟩
  · simp [polyCopy, hOwn, Cell.copy, Store.alloc]
  · simp [observe, polyCopy, hOwn, Cell.copy, Poly.data, Cell.data,
      Store.alloc]
  · simp [observe, polyCopy, hOwn, Cell.copy, Poly.data, Cell.data]
    exact Store.alloc_mem_lt s _ a ha
  · have hfr := polyInvoke_frame C _ i arg _ s₂ r hinv
    have hne : (polyCopy pOwn s).2.storage.data ≠ some a := by
      simp [polyCopy, hOwn, Cell.copy, Store.alloc, Cell.data]
      omega
    have hmem : s₂.mem a = s.mem a := by
      rw [hfr.1 a hne]
      simp [polyCopy, hOwn, Cell.copy]
      exact Store.alloc_mem_lt s _ a ha
    simp [observe, Poly.data, hOwn, Cell.data, hmem]
  · rw [hcopyAli]
  · rw [hcopyAli]
  · rw [hcopyAli]
  · rw [hcopyAli] at hinv
    rw [polyInvoke_eq_dispatch C pAli _ hv i arg sA] at hinv
    have hget : (tableAt C (poly_vtable_instance C u)).get? i =
        some (fill_vtable_entry (Selector.member f)) := by
      rw [tableAt_get]
      have himpl2 : (C.impl (poly_vtable_instance C u).ty).get? i =
          some (Selector.member f) := himpl
      rw [himpl2]
      rfl
    rw [dispatch_eq_entry _ _ i arg sA _ hget] at hinv
    simp [fill_vtable_entry, hAli, Cell.data] at hinv
    constructor
    · simp [observe, Poly.data, hAli, Cell.data, ← hinv.1,
        Store.write_mem_self]
    · rw [← hinv.1]
      exact Store.write_mem_self sA b _

/-- Witness for C5: an owning holder over a two-object heap and an aliasing
holder over address 0, with the mutating `set` operation (index 1). -/
theorem poly_copy_owning_independent_aliasing_shared_witness :
    ((polyCopy (polyInPlace Clazz 1 (3 : Int) store0).2
        (polyInPlace Clazz 1 (3 : Int) store0).1).2.storage =
      Cell.owned (polyInPlace Clazz 1 (3 : Int) store0).1.next 1 ∧
    (polyCopy (polyInPlace Clazz 1 (3 : Int) store0).2
        (polyInPlace Clazz 1 (3 : Int) store0).1).2.vtable =
      (polyInPlace Clazz 1 (3 : Int) store0).2.vtable ∧
    observe (polyCopy (polyInPlace Clazz 1 (3 : Int) store0).2
        (polyInPlace Clazz 1 (3 : Int) store0).1).2
      (polyCopy (polyInPlace Clazz 1 (3 : Int) store0).2
        (polyInPlace Clazz 1 (3 : Int) store0).1).1 =
      observe (polyInPlace Clazz 1 (3 : Int) store0).2
        (polyInPlace Clazz 1 (3 : Int) store0).1 ∧
    observe (polyInPlace Clazz 1 (3 : Int) store0).2
      (polyCopy (polyInPlace Clazz 1 (3 : Int) store0).2
        (polyInPlace Clazz 1 (3 : Int) store0).1).1 =
      observe (polyInPlace Clazz 1 (3 : Int) store0).2
        (polyInPlace Clazz 1 (3 : Int) store0).1 ∧
    (∀ i arg s₂ r,
      polyInvoke Clazz (polyCopy (polyInPlace Clazz 1 (3 : Int) store0).2
          (polyInPlace Clazz 1 (3 : Int) store0).1).2 i arg
        (polyCopy (polyInPlace Clazz 1 (3 : Int) store0).2
          (polyInPlace Clazz 1 (3 : Int) store0).1).1 = some (s₂, r) →
      observe (polyInPlace Clazz 1 (3 : Int) store0).2 s₂ =
        observe (polyInPlace Clazz 1 (3 : Int) store0).2
          (polyInPlace Clazz 1 (3 : Int) store0).1) ∧
    (polyCopy (polyRefWrap Clazz 1 0) store0).1 = store0 ∧
    (polyCopy (polyRefWrap Clazz 1 0) store0).2 = polyRefWrap Clazz 1 0 ∧
    (polyCopy (polyRefWrap Clazz 1 0) store0).2.data =
      (polyRefWrap Clazz 1 0).data ∧
    (∀ i f arg s₂ r,
      (Clazz.impl 1).get? i = some (Selector.member f) →
      polyInvoke Clazz (polyCopy (polyRefWrap Clazz 1 0) store0).2 i arg
        store0 = some (s₂, r) →
      observe (polyRefWrap Clazz 1 0) s₂ = some (f (store0.mem 0) arg).1 ∧
      s₂.mem 0 = (f (store0.mem 0) arg).1)) :=
  poly_copy_owning_independent_aliasing_shared Clazz
    (polyInPlace Clazz 1 (3 : Int) store0).2 (polyRefWrap Clazz 1 0)
    (polyInPlace Clazz 1 (3 : Int) store0).1 store0 0 0 1 1
    rfl (by decide) rfl rfl

/-- C3 counterexample: a selector of the shape `poly_storage.hpp` uses
(`&members<Type>::value_type`), a free function invocable with the
forwarded arguments alone and taking no receiver parameter, is not
directly invocable with the erased-receiver-plus-arguments shape, so the
literal §4.2 algorithm cannot install it — step 2 does not apply and step
3's adapter would have to pass a concrete receiver the selector does not
accept — while `fill_vtable_entry` does install an entry for it (one that
ignores the erased receiver). -/
theorem fill_vtable_entry_spec_mismatch :
    specFillEntry (Selector.free (fun a => a) : Selector Int Int Int) ≠
      some (fill_vtable_entry (Selector.free (fun a => a))) := by
  simp [specFillEntry]

/-- C3 amended: the installed entry follows the code's actual selection
test, invocability with the forwarded arguments alone: such a selector is
installed as an adapter that ignores the erased receiver and invokes the
selector with just the arguments; any other selector is installed as an
adapter that unerases the storage reference to the concrete type, invokes
the selector with the concrete receiver and the forwarded arguments, writes
the updated receiver back in place and returns the result; the table is
assembled entry by entry, index for index, from the implementation
mapping. -/
theorem fill_vtable_entry_installs {V A R : Type} (C : Concept V A R)
    (t : TypeId) (sel : Selector V A R) :
    (∀ i, (fill_vtable C t).get? i =
      ((C.impl t).get? i).map fill_vtable_entry) ∧
    (∀ f, sel = Selector.free f → sel.invocableWithArgsOnly = true ∧
      ∀ c c' s a, fill_vtable_entry sel c s a = fill_vtable_entry sel c' s a ∧
        fill_vtable_entry sel c s a = some (s, f a)) ∧
    (∀ f, sel = Selector.member f → sel.invocableWithArgsOnly = false ∧
      ∀ c s a addr, c.data = some addr →
        fill_vtable_entry sel c s a =
          some (s.write addr (f (s.mem addr) a).1, (f (s.mem addr) a).2)) := by
  refine ⟨fun i => by simp [fill_vtable], fun f hf => ?_, fun f hf => ?_⟩
  · subst hf
    exact ⟨rfl, fun c c' s a => ⟨rfl, rfl⟩⟩
  · subst hf
    refine ⟨rfl, fun c s a addr hdata => ?_⟩
    simp [fill_vtable_entry, hdata]

/-- Witness for C3 amended: a concrete free selector installed as a
receiver-ignoring entry. -/
theorem fill_vtable_entry_installs_witness :
    (Selector.free (fun a => a) : Selector Int Int Int).invocableWithArgsOnly
      = true ∧
    fill_vtable_entry (Selector.free (fun a => a) : Selector Int Int Int)
      Cell.empty store0 (5 : Int) = some (store0, 5) :=
  ⟨((fill_vtable_entry_installs Clazz 1
      (Selector.free (fun a => a))).2.1 _ rfl).1,
   (((fill_vtable_entry_installs Clazz 1
      (Selector.free (fun a => a))).2.1 _ rfl).2 Cell.empty Cell.empty
      store0 5).2⟩

/-- Witness for C1 at a concrete reachable holder: a holder constructed in
place over the concrete test concept. -/
theorem reachable_vtable_null_iff_storage_empty_witness :
    ((polyInPlace Clazz 1 (3 : Int) store0).2.vtable = none ↔
      (polyInPlace Clazz 1 (3 : Int) store0).2.storage = Cell.empty) ∧
    (∀ vt, (polyInPlace Clazz 1 (3 : Int) store0).2.vtable = some vt →
      ∃ t, (polyInPlace Clazz 1 (3 : Int) store0).2.storage.typeId = some t ∧
        vt = poly_vtable_instance Clazz t) ∧
    ((polyInPlace Clazz 1 (3 : Int) store0).2.toBool = true ↔
      ¬ (polyInPlace Clazz 1 (3 : Int) store0).2.vtable = none) ∧
    ((polyInPlace Clazz 1 (3 : Int) store0).2.toBool = true ↔
      ¬ (polyInPlace Clazz 1 (3 : Int) store0).2.storage = Cell.empty) :=
  reachable_vtable_null_iff_storage_empty Clazz _
    (Reachable.inPlace store0 1 3)

end entt
